import Mathlib

/-!
Ticket inventory service (`main.go`): embedding and verification

The development embeds the inventory core of `main.go` — `generateUUID`,
`CreateEvent`, `ListEvents` and `BookTickets` of `TicketService` — as executable
Lean functions over an explicit program state, and proves properties of it.

Modelling conventions

* `*Event` values are addresses into an explicit heap (`TicketService.heap`), so a
  record shared by the event map and by the cache is one record, mutated in place.
* `sync.Map` is an association list; `Load`, `Store` and `Range` are `loadMap`,
  `storeMap` and the list itself (one enumeration order among the permitted ones).
* `sync.Mutex` is a boolean. `Lock` on a held mutex never returns (`Outcome.blocked`);
  a run-time panic is `Outcome.fault`; both carry the state at that point.
* Go `int` is 64 bits wide: the subtraction `event.AvailableTickets -= numTickets` and
  the increment `ts.uuidCounter++` both wrap around (`wrapInt`).
* `strconv.Itoa` / `strconv.Atoi` are modelled from their documented behaviour
  (`Itoa`, `Atoi`), including the clamped value `Atoi` returns on a range error and
  the zero it returns on a syntax error.
* `time.Time` is an uninterpreted timestamp (`Time`); `fmt.Println` is not modelled.
* Strings are sequences of characters; Go strings that are not valid UTF-8 are outside
  the model.
* Reachable states are those the service is in between sequential calls that returned,
  while the counter has not wrapped (at most `2^63 - 1` identifiers issued so far);
  a call that panics or blocks ends the run.
-/

namespace TicketSvc

/-! ## Go integers and `strconv` -/

/-- Largest Go `int` (64-bit). -/
def maxInt : Int := 9223372036854775807

/-- Smallest Go `int` (64-bit). -/
def minInt : Int := -9223372036854775808

/-- Values a Go `int` variable can hold. -/
def IsGoInt (i : Int) : Prop := minInt ≤ i ∧ i ≤ maxInt

instance (i : Int) : Decidable (IsGoInt i) :=
  inferInstanceAs (Decidable (minInt ≤ i ∧ i ≤ maxInt))

/-- Two's-complement wrap-around of an arithmetic result into the Go `int` range. -/
def wrapInt (i : Int) : Int := (i + 9223372036854775808) % 18446744073709551616 - 9223372036854775808

/-- Decimal digit character of a number below ten. -/
def digitChar : Nat → Char
  | 0 => '0'
  | 1 => '1'
  | 2 => '2'
  | 3 => '3'
  | 4 => '4'
  | 5 => '5'
  | 6 => '6'
  | 7 => '7'
  | 8 => '8'
  | _ => '9'

/-- Value of a decimal digit character, `none` for any other character. -/
def digitVal (c : Char) : Option Nat :=
  if c = '0' then some 0 else
  if c = '1' then some 1 else
  if c = '2' then some 2 else
  if c = '3' then some 3 else
  if c = '4' then some 4 else
  if c = '5' then some 5 else
  if c = '6' then some 6 else
  if c = '7' then some 7 else
  if c = '8' then some 8 else
  if c = '9' then some 9 else none

/-- Decimal digits of `n`, least significant first; `fuel` bounds the number of digits. -/
def digitsLE : Nat → Nat → List Nat
  | 0, _ => []
  | fuel + 1, n => (n % 10) :: (if n / 10 = 0 then [] else digitsLE fuel (n / 10))

/-- Decimal numeral of a natural number, most significant digit first. -/
def decimal (n : Nat) : List Char := ((digitsLE (n + 1) n).map digitChar).reverse

/-- Model of `strconv.Itoa`: the base-10 numeral, with a leading `-` for negatives. -/
def Itoa (i : Int) : String :=
  if i < 0 then String.mk ('-' :: decimal i.natAbs) else String.mk (decimal i.toNat)

/-- Reads a run of decimal digits as a number (left to right), `none` on a non-digit. -/
def parseDigits : List Char → Nat → Option Nat
  | [], acc => some acc
  | c :: cs, acc =>
    match digitVal c with
    | none => none
    | some d => parseDigits cs (acc * 10 + d)

/-- The unsigned part of `strconv.Atoi` (after the sign was removed): at least one
decimal digit is required; `neg` tells whether a `-` was read. On a syntax error the
value is `0`, on a range error it is the nearest bound of `int`. -/
def atoiDigits (neg : Bool) (ds : List Char) : Int × Bool :=
  match ds with
  | [] => (0, false)
  | d :: rest =>
    match parseDigits (d :: rest) 0 with
    | none => (0, false)
    | some u =>
      if neg then
        (if (9223372036854775808 : Int) < u then (minInt, false) else (-(u : Int), true))
      else
        (if (9223372036854775808 : Int) ≤ u then (maxInt, false) else ((u : Int), true))

/-- Model of `strconv.Atoi`: the value and whether the error is nil. An optional sign
is followed by decimal digits. -/
def Atoi (s : String) : Int × Bool :=
  match s.data with
  | [] => (0, false)
  | c :: r =>
    if c = '-' then atoiDigits true r
    else if c = '+' then atoiDigits false r
    else atoiDigits false (c :: r)

/-! ## Data model -/

/-- Stand-in for `time.Time`; the core stores it and never inspects it. -/
abbrev Time := Int

/-- The `Event` struct. -/
structure Event where
  ID : String
  Name : String
  Date : Time
  TotalTickets : Int
  AvailableTickets : Int
deriving DecidableEq

/-- A non-nil `*Event`: an address in the heap of allocated `Event` records. -/
abbrev EventPtr := Nat

/-- The `TicketService` struct together with the heap its `*Event` values point into.
`mu = true` means the mutex is held. -/
structure TicketService where
  heap : List Event
  events : List (String × EventPtr)
  mu : Bool
  uuidCounter : Int
  cache : Fin 10 → Option EventPtr

/-- The zero value `TicketService{}` created in `main`. -/
def fresh : TicketService :=
  { heap := [], events := [], mu := false, uuidCounter := 0, cache := fun _ => none }

/-- Result of running a piece of code on a state. -/
inductive Outcome (α : Type) where
  | ret (a : α) (s : TicketService)
  | fault (s : TicketService)
  | blocked (s : TicketService)

/-- Code acting on the service state. -/
def Go (α : Type) : Type := TicketService → Outcome α

instance : Monad Go where
  pure a := fun s => Outcome.ret a s
  bind m f := fun s =>
    match m s with
    | Outcome.ret a s' => f a s'
    | Outcome.fault s' => Outcome.fault s'
    | Outcome.blocked s' => Outcome.blocked s'

/-- The two errors `BookTickets` builds with `fmt.Errorf`. -/
inductive BookError where
  | eventNotFound
  | notEnoughTickets
deriving DecidableEq

/-- Message text of a `BookError`. -/
def BookError.message : BookError → String
  | BookError.eventNotFound => "event not found"
  | BookError.notEnoughTickets => "not enough tickets available"

/-! ## Primitives -/

/-- Method `sync.Map.Load` on the association list. -/
def loadMap (k : String) : List (String × EventPtr) → Option EventPtr
  | [] => none
  | (k', v) :: rest => if k' = k then some v else loadMap k rest

/-- Method `sync.Map.Store` on the association list: overwrite the key or add it. -/
def storeMap (k : String) (v : EventPtr) : List (String × EventPtr) → List (String × EventPtr)
  | [] => [(k, v)]
  | (k', v') :: rest => if k' = k then (k, v) :: rest else (k', v') :: storeMap k v rest

/-- Statement `ts.mu.Lock()`: blocks for ever when the mutex is held. -/
def lock : Go Unit := fun s =>
  if s.mu then Outcome.blocked s else Outcome.ret () { s with mu := true }

/-- Statement `ts.mu.Unlock()`; unlocking a free mutex is a fatal error. -/
def unlock : Go Unit := fun s =>
  if s.mu then Outcome.ret () { s with mu := false } else Outcome.fault s

/-- Reading through an `*Event`. -/
def deref (p : EventPtr) : Go Event := fun s =>
  match s.heap[p]? with
  | some e => Outcome.ret e s
  | none => Outcome.fault s

/-- Allocation of a new record, `&Event{...}`. -/
def alloc (e : Event) : Go EventPtr := fun s =>
  Outcome.ret s.heap.length { s with heap := s.heap ++ [e] }

/-- Bounds check of an index into `cache [10]*Event`. -/
def cacheSlot (i : Int) : Option (Fin 10) :=
  if h : 0 ≤ i ∧ i < 10 then some ⟨i.toNat, by omega⟩ else none

/-- Result of `ts.cache[i]`: a run-time panic when `i` is out of range. -/
def readCache (i : Int) : Go (Option EventPtr) := fun s =>
  match cacheSlot i with
  | some k => Outcome.ret (s.cache k) s
  | none => Outcome.fault s

/-- Assignment `ts.cache[i] = event`. -/
def writeCache (i : Int) (p : EventPtr) : Go Unit := fun s =>
  match cacheSlot i with
  | some k => Outcome.ret () { s with cache := Function.update s.cache k (some p) }
  | none => Outcome.fault s

/-- Call `ts.events.Load(eventID)`: the value and the `ok` flag. -/
def eventsLoad (k : String) : Go (Option EventPtr × Bool) := fun s =>
  Outcome.ret (loadMap k s.events, (loadMap k s.events).isSome) s

/-- Call `ts.events.Store(k, p)`. -/
def eventsStore (k : String) (p : EventPtr) : Go Unit := fun s =>
  Outcome.ret () { s with events := storeMap k p s.events }

/-- The single-value type assertion `eventInterface.(*Event)`: panics on a nil interface. -/
def assertEvent (v : Option EventPtr) : Go EventPtr := fun s =>
  match v with
  | some p => Outcome.ret p s
  | none => Outcome.fault s

/-- Assignment `event.AvailableTickets -= numTickets` through the pointer. -/
def subAvailable (p : EventPtr) (numTickets : Int) : Go Unit := fun s =>
  match s.heap[p]? with
  | some e =>
    let e' : Event := { e with AvailableTickets := wrapInt (e.AvailableTickets - numTickets) }
    Outcome.ret () { s with heap := s.heap.set p e' }
  | none => Outcome.fault s

/-! ## The service operations -/

/-- Method `generateUUID` (lines 40-45): lock, increment, format; the deferred unlock runs
last. -/
def generateUUID : Go String := do
  lock
  let id ← (fun s =>
    Outcome.ret (Itoa (wrapInt (s.uuidCounter + 1)))
      { s with uuidCounter := wrapInt (s.uuidCounter + 1) } : Go String)
  unlock
  pure id

/-- Method `CreateEvent` (lines 47-57); the error result is always nil and is omitted. -/
def CreateEvent (name : String) (date : Time) (totalTickets : Int) : Go EventPtr := do
  let id ← generateUUID
  let event ← alloc
    { ID := id, Name := name, Date := date,
      TotalTickets := totalTickets, AvailableTickets := totalTickets }
  eventsStore id event
  pure event

/-- Method `ListEvents` (lines 59-67). -/
def ListEvents : Go (List EventPtr) := fun s =>
  Outcome.ret (s.events.map Prod.snd) s

/-- Lines 70-87 of `BookTickets`: resolve `eventID` to a record through the cache or
the event map. -/
def resolveEvent (eventID : String) : Go (Except BookError EventPtr) := do
  let eventIDInt := (Atoi eventID).1
  let cacheIndex := Int.tmod eventIDInt 10
  let slot ← readCache cacheIndex
  let hit ← (match slot with
    | none => pure false
    | some p => do
      let e ← deref p
      pure (decide (e.ID = eventID)) : Go Bool)
  if hit then
    let slot' ← readCache cacheIndex
    let event ← assertEvent slot'
    pure (Except.ok event)
  else
    lock
    let loaded ← eventsLoad eventID
    let event ← assertEvent loaded.1
    unlock
    if !loaded.2 then
      pure (Except.error BookError.eventNotFound)
    else
      lock
      writeCache cacheIndex event
      unlock
      pure (Except.ok event)

/-- The loop of lines 94-97: `k` more calls of `generateUUID`, appended to `ticketIDs`. -/
def issueTickets : Nat → List String → Go (List String)
  | 0, ticketIDs => pure ticketIDs
  | k + 1, ticketIDs => do
    let ticketID ← generateUUID
    issueTickets k (ticketIDs ++ [ticketID])

/-- Lines 89-91 of `BookTickets`: the availability check on the resolved record; `true`
when the request exceeds what is available. -/
def insufficient (event : EventPtr) (numTickets : Int) : Go Bool := do
  let e ← deref event
  pure (decide (e.AvailableTickets < numTickets))

/-- Lines 92-104 of `BookTickets`: issue the identifiers, then decrement and store under
the mutex. -/
def issueAndCommit (eventID : String) (event : EventPtr) (numTickets : Int) :
    Go (List String) := do
  let ticketIDs ← issueTickets numTickets.toNat []
  lock
  subAvailable event numTickets
  eventsStore eventID event
  unlock
  pure ticketIDs

/-- Lines 89-104 of `BookTickets`, on the resolved record. -/
def bookResolved (eventID : String) (event : EventPtr) (numTickets : Int) :
    Go (Except BookError (List String)) := do
  let short ← insufficient event numTickets
  if short then
    pure (Except.error BookError.notEnoughTickets)
  else
    let ticketIDs ← issueAndCommit eventID event numTickets
    pure (Except.ok ticketIDs)

/-- Method `BookTickets` (lines 69-105). -/
def BookTickets (eventID : String) (numTickets : Int) : Go (Except BookError (List String)) := do
  let r ← resolveEvent eventID
  match r with
  | Except.error err => pure (Except.error err)
  | Except.ok event => bookResolved eventID event numTickets

/-! ## Sequential runs -/

/-- A call of one of the two mutating operations of the core. -/
inductive Call where
  | create (name : String) (date : Time) (totalTickets : Int)
  | book (eventID : String) (numTickets : Int)

/-- One call that returns: the identifiers it hands to its caller (the new event's `ID`,
or the ticket identifiers) and the state it leaves. `none` when the call does not return
(panic, or blocked on the mutex), and for an integer argument that is not a Go `int`. -/
def Call.run : Call → TicketService → Option (List String × TicketService)
  | Call.create name date totalTickets, s =>
    if IsGoInt totalTickets then
      match CreateEvent name date totalTickets s with
      | Outcome.ret event s' =>
        match s'.heap[event]? with
        | some e => some ([e.ID], s')
        | none => none
      | _ => none
    else none
  | Call.book eventID numTickets, s =>
    if IsGoInt numTickets then
      match BookTickets eventID numTickets s with
      | Outcome.ret (Except.ok ticketIDs) s' => some (ticketIDs, s')
      | Outcome.ret (Except.error _) s' => some ([], s')
      | _ => none
    else none

/-- A sequence of calls, one after the other, each returning before the next starts:
all identifiers handed out, in order, and the final state. -/
def runCalls : List Call → TicketService → Option (List String × TicketService)
  | [], s => some ([], s)
  | c :: cs, s =>
    match c.run s with
    | none => none
    | some (ids, s') =>
      match runCalls cs s' with
      | none => none
      | some (ids', s2) => some (ids ++ ids', s2)

/-- States the service reaches from `TicketService{}` by sequential calls that return,
while the counter has not wrapped: the run issued at most `2^63 - 1` identifiers. -/
def Reachable (s : TicketService) : Prop :=
  ∃ calls ids, runCalls calls fresh = some (ids, s) ∧ (ids.length : Int) ≤ maxInt

/-- The record the event map holds under key `k`, read through the stored pointer. -/
def storedEvent (s : TicketService) (k : String) : Option Event :=
  (loadMap k s.events).bind (fun p => s.heap[p]?)

/-- No negative ticket count is passed: `totalTickets` and `numTickets` are at least zero. -/
def Call.NonNeg : Call → Prop
  | Call.create _ _ totalTickets => 0 ≤ totalTickets
  | Call.book _ numTickets => 0 ≤ numTickets

/-- Only `BookTickets` is restricted: its `numTickets` is at least zero. -/
def Call.BookNonNeg : Call → Prop
  | Call.create _ _ _ => True
  | Call.book _ numTickets => 0 ≤ numTickets

/-- Consistency of the state between sequential calls. -/
structure Inv (s : TicketService) : Prop where
  free : s.mu = false
  counter_nonneg : 0 ≤ s.uuidCounter
  counter_fits : s.uuidCounter ≤ maxInt
  keyed : ∀ k p, loadMap k s.events = some p →
    ∃ e, s.heap[p]? = some e ∧ e.ID = k ∧ ∃ i : Int, 1 ≤ i ∧ i ≤ s.uuidCounter ∧ k = Itoa i
  valid : ∀ kp ∈ s.events, kp.2 < s.heap.length
  ints : ∀ e ∈ s.heap, IsGoInt e.TotalTickets ∧ IsGoInt e.AvailableTickets
  cached : ∀ (i : Fin 10) (p : EventPtr), s.cache i = some p →
    ∃ e, s.heap[p]? = some e ∧ loadMap e.ID s.events = some p ∧
      cacheSlot (Int.tmod (Atoi e.ID).1 10) = some i

/-- How a piece of code ended. -/
inductive Verdict (α : Type) where
  | returned (a : α)
  | panicked
  | stuck

/-- The way an outcome ended, with the returned value. -/
def Outcome.verdict {α : Type} : Outcome α → Verdict α
  | Outcome.ret a _ => Verdict.returned a
  | Outcome.fault _ => Verdict.panicked
  | Outcome.blocked _ => Verdict.stuck

/-- The state an outcome carries. -/
def Outcome.state {α : Type} : Outcome α → TicketService
  | Outcome.ret _ s => s
  | Outcome.fault s => s
  | Outcome.blocked s => s

/-! ## Concurrent bookings

A goroutine inside `BookTickets` is followed through two uninterrupted stretches of
code: lines 70-91 (resolve the event and check availability) and lines 92-104 (issue
the identifiers and decrement). The mutex is free between the two stretches, so another
goroutine may run there; every schedule of these stretches is an execution of the
program. -/

/-- Where a goroutine executing `BookTickets(eventID, numTickets)` stands. -/
inductive Booking where
  | called (eventID : String) (numTickets : Int)
  | passed (eventID : String) (event : EventPtr) (numTickets : Int)
  | returned (r : Except BookError (List String))
  | panicked

/-- The next stretch of a goroutine; `none` when it has ended or cannot get the mutex. -/
def Booking.step : Booking → TicketService → Option (Booking × TicketService)
  | Booking.called eventID numTickets, s =>
    match resolveEvent eventID s with
    | Outcome.ret (Except.error err) s' => some (Booking.returned (Except.error err), s')
    | Outcome.ret (Except.ok event) s' =>
      match insufficient event numTickets s' with
      | Outcome.ret true s2 =>
        some (Booking.returned (Except.error BookError.notEnoughTickets), s2)
      | Outcome.ret false s2 => some (Booking.passed eventID event numTickets, s2)
      | Outcome.fault s2 => some (Booking.panicked, s2)
      | Outcome.blocked _ => none
    | Outcome.fault s' => some (Booking.panicked, s')
    | Outcome.blocked _ => none
  | Booking.passed eventID event numTickets, s =>
    match issueAndCommit eventID event numTickets s with
    | Outcome.ret ticketIDs s' => some (Booking.returned (Except.ok ticketIDs), s')
    | Outcome.fault s' => some (Booking.panicked, s')
    | Outcome.blocked _ => none
  | Booking.returned _, _ => none
  | Booking.panicked, _ => none

/-- Runs a schedule: each entry names the goroutine that executes its next stretch. -/
def runSchedule : List Nat → List Booking → TicketService → Option (List Booking × TicketService)
  | [], gs, s => some (gs, s)
  | i :: rest, gs, s =>
    match gs[i]? with
    | none => none
    | some g =>
      match g.step s with
      | none => none
      | some (g', s') => runSchedule rest (gs.set i g') s'

/-- The cache lookup of lines 74-75 misses: the slot is nil or holds another identifier. -/
def CacheMiss (s : TicketService) (k : Fin 10) (eventID : String) : Prop :=
  s.cache k = none ∨ ∃ p e, s.cache k = some p ∧ s.heap[p]? = some e ∧ e.ID ≠ eventID

/-- The identifiers `n` consecutive calls of `generateUUID` return from counter `c`. -/
def issuedFrom (c : Int) (n : Nat) : List String :=
  (List.range n).map (fun (j : Nat) => Itoa (wrapInt (c + 1 + (j : Int))))

/-- The counter after `n` consecutive calls of `generateUUID` from counter `c`. -/
def counterAfter (c : Int) (n : Nat) : Int :=
  if n = 0 then c else wrapInt (c + (n : Int))

/-- State left by a booking of `numTickets` on record `q` (holding `e`), with cache `c`. -/
def bookedState (s : TicketService) (q : EventPtr) (e : Event) (numTickets : Int)
    (c : Fin 10 → Option EventPtr) : TicketService :=
  { heap := s.heap.set q { e with AvailableTickets := wrapInt (e.AvailableTickets - numTickets) },
    events := s.events, mu := false,
    uuidCounter := counterAfter s.uuidCounter numTickets.toNat, cache := c }

/-- The identifiers `c+1, ..., c+n` as decimal strings. -/
def idsFrom (c : Int) (n : Nat) : List String :=
  (List.range n).map (fun (j : Nat) => Itoa (c + 1 + (j : Int)))

/-- Consistency that survives a wrapped counter: the mutex is free, every pointer in the
event map and in the cache points at an allocated record, ticket counts are Go `int`s. -/
structure Sound (s : TicketService) : Prop where
  free : s.mu = false
  valid : ∀ kp ∈ s.events, kp.2 < s.heap.length
  ints : ∀ e ∈ s.heap, IsGoInt e.TotalTickets ∧ IsGoInt e.AvailableTickets
  cacheValid : ∀ (i : Fin 10) (p : EventPtr), s.cache i = some p → p < s.heap.length

/-- Every allocated record has its available count between zero and its total. -/
def Bounded (s : TicketService) : Prop :=
  ∀ e ∈ s.heap, 0 ≤ e.AvailableTickets ∧ e.AvailableTickets ≤ e.TotalTickets

/-- The service after `CreateEvent("Concert", 0, 5)` on `TicketService{}`. -/
def concertFive : TicketService :=
  { heap := [{ ID := "1", Name := "Concert", Date := 0, TotalTickets := 5, AvailableTickets := 5 }],
    events := [("1", 0)], mu := false, uuidCounter := 1, cache := fun _ => none }

/-- The service after `CreateEvent("Concert", 0, 1)` on `TicketService{}`. -/
def concertOne : TicketService :=
  { heap := [{ ID := "1", Name := "Concert", Date := 0, TotalTickets := 1, AvailableTickets := 1 }],
    events := [("1", 0)], mu := false, uuidCounter := 1, cache := fun _ => none }

/-- The service after `BookTickets("1", 3)` on `concertFive`. -/
def concertBooked : TicketService :=
  { heap := [{ ID := "1", Name := "Concert", Date := 0, TotalTickets := 5, AvailableTickets := 2 }],
    events := [("1", 0)], mu := false, uuidCounter := 4,
    cache := Function.update (fun _ => none) 1 (some 0) }

/-- The service `concertOne` after a first goroutine resolved event `"1"` (lines 70-91). -/
def concertOneCached : TicketService :=
  { heap := [{ ID := "1", Name := "Concert", Date := 0, TotalTickets := 1, AvailableTickets := 1 }],
    events := [("1", 0)], mu := false, uuidCounter := 1,
    cache := Function.update (fun _ => none) 1 (some 0) }

/-- The service `concertOneCached` after one goroutine ran lines 92-104. -/
def concertOneSold : TicketService :=
  { heap := [{ ID := "1", Name := "Concert", Date := 0, TotalTickets := 1, AvailableTickets := 0 }],
    events := [("1", 0)], mu := false, uuidCounter := 2,
    cache := Function.update (fun _ => none) 1 (some 0) }

/-- The service `concertOneSold` after a second goroutine ran lines 92-104. -/
def concertOneOversold : TicketService :=
  { heap := [{ ID := "1", Name := "Concert", Date := 0, TotalTickets := 1, AvailableTickets := -1 }],
    events := [("1", 0)], mu := false, uuidCounter := 3,
    cache := Function.update (fun _ => none) 1 (some 0) }

/-- The service after `CreateEvent("Concert", 0, -1)` on `TicketService{}`. -/
def concertNegative : TicketService :=
  { heap := [{ ID := "1", Name := "Concert", Date := 0, TotalTickets := -1,
               AvailableTickets := -1 }],
    events := [("1", 0)], mu := false, uuidCounter := 1, cache := fun _ => none }

/-- The service after `CreateEvent("Concert", 0, 9223372036854775807)` on `TicketService{}`. -/
def concertMax : TicketService :=
  { heap := [{ ID := "1", Name := "Concert", Date := 0, TotalTickets := 9223372036854775807,
               AvailableTickets := 9223372036854775807 }],
    events := [("1", 0)], mu := false, uuidCounter := 1, cache := fun _ => none }

/-- The service `concertMax` after `BookTickets("1", 9223372036854775807)`. -/
def concertMaxSold : TicketService :=
  { heap := [{ ID := "1", Name := "Concert", Date := 0, TotalTickets := 9223372036854775807,
               AvailableTickets := 0 }],
    events := [("1", 0)], mu := false, uuidCounter := -9223372036854775808,
    cache := Function.update (fun _ => none) 1 (some 0) }

/-- The service `concertFive` as the panic of `BookTickets("2", 1)` leaves it: the mutex
taken at line 77 is held. -/
def concertHeld : TicketService :=
  { heap := [{ ID := "1", Name := "Concert", Date := 0, TotalTickets := 5, AvailableTickets := 5 }],
    events := [("1", 0)], mu := true, uuidCounter := 1, cache := fun _ => none }

/-! ## Facts about the primitives -/

theorem digitVal_digitChar (d : Nat) (h : d < 10) : digitVal (digitChar d) = some d := by
  interval_cases d <;> rfl

theorem parseDigits_append (l : List Char) (c : Char) : ∀ acc : Nat,
    parseDigits (l ++ [c]) acc =
      (parseDigits l acc).bind (fun a => (digitVal c).map (fun d => a * 10 + d)) := by
  induction l with
  | nil =>
    intro acc
    simp only [List.nil_append, parseDigits, Option.some_bind]
    cases digitVal c <;> rfl
  | cons x xs ih =>
    intro acc
    simp only [List.cons_append, parseDigits]
    cases digitVal x with
    | none => rfl
    | some d => exact ih _

theorem parseDigits_digitsLE : ∀ (fuel n : Nat), n < fuel →
    parseDigits ((digitsLE fuel n).map digitChar).reverse 0 = some n := by
  intro fuel
  induction fuel with
  | zero => intro n h; omega
  | succ f ih =>
    intro n h
    simp only [digitsLE, List.map_cons, List.reverse_cons, parseDigits_append]
    have hd : digitVal (digitChar (n % 10)) = some (n % 10) :=
      digitVal_digitChar _ (Nat.mod_lt _ (by decide))
    by_cases h0 : n / 10 = 0
    · simp only [h0, if_true, List.map_nil, List.reverse_nil, parseDigits, Option.some_bind, hd,
        Option.map_some']
      congr 1; omega
    · simp only [h0, if_false]
      rw [ih (n / 10) (by omega)]
      simp only [Option.some_bind, hd, Option.map_some']
      congr 1; omega

theorem parseDigits_decimal (n : Nat) : parseDigits (decimal n) 0 = some n :=
  parseDigits_digitsLE (n + 1) n (Nat.lt_succ_self n)

theorem decimal_injective {n m : Nat} (h : decimal n = decimal m) : n = m := by
  have h1 := parseDigits_decimal n
  rw [h, parseDigits_decimal m] at h1
  exact (Option.some.inj h1).symm

theorem Itoa_injective {i j : Int} (hi : 0 ≤ i) (hj : 0 ≤ j) (h : Itoa i = Itoa j) : i = j := by
  unfold Itoa at h
  rw [if_neg (by omega), if_neg (by omega)] at h
  have := decimal_injective (congrArg String.data h)
  omega

theorem digitVal_minus : digitVal '-' = none := by rfl
theorem digitVal_plus : digitVal '+' = none := by rfl

theorem decimal_ne_nil (n : Nat) : decimal n ≠ [] := by
  simp [decimal, digitsLE]

theorem Atoi_Itoa (i : Int) (hi : 0 ≤ i) :
    Atoi (Itoa i) = if maxInt < i then (maxInt, false) else (i, true) := by
  have hp := parseDigits_decimal i.toNat
  unfold Itoa
  rw [if_neg (by omega)]
  unfold Atoi
  simp only
  cases hdec : decimal i.toNat with
  | nil => exact absurd hdec (decimal_ne_nil _)
  | cons c r =>
    rw [hdec] at hp
    have hc : digitVal c ≠ none := by
      intro hc; simp [parseDigits, hc] at hp
    have h1 : c ≠ '-' := by rintro rfl; exact hc digitVal_minus
    have h2 : c ≠ '+' := by rintro rfl; exact hc digitVal_plus
    simp only [h1, h2, if_false, atoiDigits, hp, Bool.false_eq_true, maxInt]
    have e : ((i.toNat : Nat) : Int) = i := Int.toNat_of_nonneg hi
    rw [e]
    by_cases hlt : (9223372036854775808 : Int) ≤ i
    · rw [if_pos hlt, if_pos (by omega)]
    · rw [if_neg hlt, if_neg (by omega)]

theorem bind_apply {α β : Type} (m : Go α) (f : α → Go β) (s : TicketService) :
    (m >>= f) s = match m s with
      | Outcome.ret a s' => f a s'
      | Outcome.fault s' => Outcome.fault s'
      | Outcome.blocked s' => Outcome.blocked s' := rfl

theorem pure_apply {α : Type} (a : α) (s : TicketService) : (pure a : Go α) s = Outcome.ret a s := rfl

theorem generateUUID_free (s : TicketService) (h : s.mu = false) :
    generateUUID s = Outcome.ret (Itoa (wrapInt (s.uuidCounter + 1)))
      { heap := s.heap, events := s.events, mu := false,
        uuidCounter := wrapInt (s.uuidCounter + 1), cache := s.cache } := by
  simp [generateUUID, bind_apply, pure_apply, lock, unlock, h]

theorem generateUUID_held (s : TicketService) (h : s.mu = true) :
    generateUUID s = Outcome.blocked s := by
  simp [generateUUID, bind_apply, pure_apply, lock, unlock, h]

theorem wrapInt_wrapInt_add (x y : Int) : wrapInt (wrapInt x + y) = wrapInt (x + y) := by
  unfold wrapInt
  omega

theorem issuedFrom_succ (c : Int) (k : Nat) :
    issuedFrom c (k + 1) = Itoa (wrapInt (c + 1)) :: issuedFrom (wrapInt (c + 1)) k := by
  have e : ∀ j : Nat, wrapInt (wrapInt (c + 1) + 1 + (j : Int)) = wrapInt (c + 1 + ((j : Int) + 1)) := by
    intro j
    rw [Int.add_assoc (wrapInt (c + 1)), wrapInt_wrapInt_add]
    congr 1
    omega
  simp only [issuedFrom, List.range_succ_eq_map, List.map_cons, List.map_map, Function.comp_def,
    Nat.cast_zero, add_zero, Nat.cast_succ, e]

theorem counterAfter_succ (c : Int) (k : Nat) :
    counterAfter c (k + 1) = counterAfter (wrapInt (c + 1)) k := by
  unfold counterAfter
  rw [if_neg (Nat.succ_ne_zero k)]
  by_cases hk : k = 0
  · subst hk
    simp
  · rw [if_neg hk, wrapInt_wrapInt_add]
    congr 1
    push_cast
    omega

theorem issueTickets_free (k : Nat) : ∀ (acc : List String) (s : TicketService), s.mu = false →
    issueTickets k acc s = Outcome.ret (acc ++ issuedFrom s.uuidCounter k)
      { heap := s.heap, events := s.events, mu := false,
        uuidCounter := counterAfter s.uuidCounter k, cache := s.cache } := by
  induction k with
  | zero => intro acc s h; cases s; simp_all [issueTickets, pure_apply, issuedFrom, counterAfter]
  | succ k ih =>
    intro acc s h
    simp only [issueTickets, bind_apply, generateUUID_free s h]
    rw [ih _ _ rfl, issuedFrom_succ, counterAfter_succ]
    simp only [List.append_assoc, List.singleton_append]

theorem cacheSlot_of_nonneg (v : Int) (h : 0 ≤ v) : ∃ k, cacheSlot (Int.tmod v 10) = some k := by
  have h1 : 0 ≤ Int.tmod v 10 := Int.tmod_nonneg _ h
  have h2 : Int.tmod v 10 < 10 := Int.tmod_lt_of_pos _ (by decide)
  exact ⟨_, dif_pos ⟨h1, h2⟩⟩

theorem Atoi_Itoa_nonneg (i : Int) (hi : 0 ≤ i) : 0 ≤ (Atoi (Itoa i)).1 := by
  rw [Atoi_Itoa i hi]
  split
  · simp [maxInt]
  · exact hi

theorem CreateEvent_free (name : String) (date : Time) (totalTickets : Int) (s : TicketService)
    (h : s.mu = false) :
    CreateEvent name date totalTickets s = Outcome.ret s.heap.length
      { heap := s.heap ++ [{ ID := Itoa (wrapInt (s.uuidCounter + 1)), Name := name, Date := date,
                             TotalTickets := totalTickets, AvailableTickets := totalTickets }],
        events := storeMap (Itoa (wrapInt (s.uuidCounter + 1))) s.heap.length s.events,
        mu := false, uuidCounter := wrapInt (s.uuidCounter + 1), cache := s.cache } := by
  simp [CreateEvent, bind_apply, pure_apply, generateUUID_free s h, alloc, eventsStore]

theorem resolveEvent_badIndex (eventID : String) (s : TicketService)
    (h : cacheSlot (Int.tmod (Atoi eventID).1 10) = none) :
    resolveEvent eventID s = Outcome.fault s := by
  simp [resolveEvent, bind_apply, readCache, h]

theorem resolveEvent_hit (eventID : String) (s : TicketService) (k : Fin 10) (p : EventPtr)
    (e : Event) (hk : cacheSlot (Int.tmod (Atoi eventID).1 10) = some k)
    (hc : s.cache k = some p) (hp : s.heap[p]? = some e) (hid : e.ID = eventID) :
    resolveEvent eventID s = Outcome.ret (Except.ok p) s := by
  simp [resolveEvent, bind_apply, pure_apply, readCache, hk, hc, deref, hp, hid, assertEvent]

theorem resolveEvent_miss_absent (eventID : String) (s : TicketService) (k : Fin 10)
    (hk : cacheSlot (Int.tmod (Atoi eventID).1 10) = some k)
    (hm : CacheMiss s k eventID) (hfree : s.mu = false)
    (hl : loadMap eventID s.events = none) :
    resolveEvent eventID s = Outcome.fault
      { heap := s.heap, events := s.events, mu := true, uuidCounter := s.uuidCounter,
        cache := s.cache } := by
  rcases hm with hc | ⟨p, e, hc, hp, hid⟩
  · simp [resolveEvent, bind_apply, pure_apply, readCache, hk, hc, lock, hfree, eventsLoad, hl,
      assertEvent]
  · simp [resolveEvent, bind_apply, pure_apply, readCache, hk, hc, deref, hp, hid, lock, hfree,
      eventsLoad, hl, assertEvent]

theorem resolveEvent_miss_found (eventID : String) (s : TicketService) (k : Fin 10) (q : EventPtr)
    (hk : cacheSlot (Int.tmod (Atoi eventID).1 10) = some k)
    (hm : CacheMiss s k eventID) (hfree : s.mu = false)
    (hl : loadMap eventID s.events = some q) :
    resolveEvent eventID s = Outcome.ret (Except.ok q)
      { heap := s.heap, events := s.events, mu := false, uuidCounter := s.uuidCounter,
        cache := Function.update s.cache k (some q) } := by
  rcases hm with hc | ⟨p, e, hc, hp, hid⟩
  · simp [resolveEvent, bind_apply, pure_apply, readCache, hk, hc, lock, hfree, eventsLoad, hl,
      assertEvent, unlock, writeCache]
  · simp [resolveEvent, bind_apply, pure_apply, readCache, hk, hc, deref, hp, hid, lock, hfree,
      eventsLoad, hl, assertEvent, unlock, writeCache]

theorem bookResolved_short (eventID : String) (p : EventPtr) (numTickets : Int)
    (s : TicketService) (e : Event) (hp : s.heap[p]? = some e)
    (hlt : e.AvailableTickets < numTickets) :
    bookResolved eventID p numTickets s = Outcome.ret (Except.error BookError.notEnoughTickets) s := by
  simp [bookResolved, insufficient, bind_apply, pure_apply, deref, hp, hlt]

theorem bookResolved_enough (eventID : String) (p : EventPtr) (numTickets : Int)
    (s : TicketService) (e : Event) (hfree : s.mu = false) (hp : s.heap[p]? = some e)
    (hge : ¬ e.AvailableTickets < numTickets) :
    bookResolved eventID p numTickets s = Outcome.ret
      (Except.ok (issuedFrom s.uuidCounter numTickets.toNat))
      { heap := s.heap.set p
          { e with AvailableTickets := wrapInt (e.AvailableTickets - numTickets) },
        events := storeMap eventID p s.events, mu := false,
        uuidCounter := counterAfter s.uuidCounter numTickets.toNat, cache := s.cache } := by
  simp [bookResolved, insufficient, issueAndCommit, bind_apply, pure_apply, deref, hp, hge,
    issueTickets_free _ _ s hfree, lock, subAvailable, eventsStore, unlock]



theorem storeMap_same (k : String) (v : EventPtr) (l : List (String × EventPtr))
    (h : loadMap k l = some v) : storeMap k v l = l := by
  induction l with
  | nil => simp [loadMap] at h
  | cons x xs ih =>
    obtain ⟨k', v'⟩ := x
    by_cases hk : k' = k
    · simp only [loadMap, hk, if_true, Option.some.injEq] at h
      simp [storeMap, hk, h]
    · simp only [loadMap, hk, if_false] at h
      simp [storeMap, hk, ih h]

theorem storeMap_absent (k : String) (v : EventPtr) (l : List (String × EventPtr))
    (h : loadMap k l = none) : storeMap k v l = l ++ [(k, v)] := by
  induction l with
  | nil => rfl
  | cons x xs ih =>
    obtain ⟨k', v'⟩ := x
    by_cases hk : k' = k
    · simp [loadMap, hk] at h
    · simp only [loadMap, hk, if_false] at h
      simp [storeMap, hk, ih h]

theorem loadMap_append (k k' : String) (v : EventPtr) (l : List (String × EventPtr)) :
    loadMap k (l ++ [(k', v)]) =
      match loadMap k l with
      | some x => some x
      | none => if k' = k then some v else none := by
  induction l with
  | nil => simp [loadMap]
  | cons x xs ih =>
    obtain ⟨k'', v''⟩ := x
    by_cases hk : k'' = k
    · simp [loadMap, hk]
    · simp [loadMap, hk, ih]

theorem wrapInt_of_isGoInt {i : Int} (h : IsGoInt i) : wrapInt i = i := by
  unfold IsGoInt minInt maxInt at h
  unfold wrapInt
  omega

theorem isGoInt_wrapInt (i : Int) : IsGoInt (wrapInt i) := by
  unfold IsGoInt minInt maxInt wrapInt
  omega

theorem lt_of_getElem? {α : Type} {l : List α} {p : Nat} {e : α} (h : l[p]? = some e) :
    p < l.length := by
  obtain ⟨h1, _⟩ := List.getElem?_eq_some.1 h
  exact h1

theorem getElem?_set_same {α : Type} {l : List α} {p : Nat} {e : α} (x : α) (h : l[p]? = some e) :
    (l.set p x)[p]? = some x := by
  simp [List.getElem?_set, lt_of_getElem? h]

theorem Inv_fresh : Inv fresh where
  free := rfl
  counter_nonneg := by simp [fresh]
  counter_fits := by simp [fresh, maxInt]
  keyed := by intro k p h; simp [fresh, loadMap] at h
  valid := by intro kp h; simp [fresh] at h
  ints := by intro e h; simp [fresh] at h
  cached := by intro i p h; simp [fresh] at h

theorem Inv_cache_update {s : TicketService} (hinv : Inv s) (eventID : String) (q : EventPtr)
    (k : Fin 10) (hl : loadMap eventID s.events = some q)
    (hk : cacheSlot (Int.tmod (Atoi eventID).1 10) = some k) :
    Inv { heap := s.heap, events := s.events, mu := false, uuidCounter := s.uuidCounter,
          cache := Function.update s.cache k (some q) } where
  free := rfl
  counter_nonneg := hinv.counter_nonneg
  counter_fits := hinv.counter_fits
  keyed := hinv.keyed
  valid := hinv.valid
  ints := hinv.ints
  cached := by
    intro i p h
    by_cases hi : i = k
    · subst hi
      simp only [Function.update_same, Option.some.injEq] at h
      subst h
      obtain ⟨e, he, hid, _⟩ := hinv.keyed _ _ hl
      exact ⟨e, he, by rw [hid]; exact hl, by rw [hid]; exact hk⟩
    · simp only [Function.update_noteq hi] at h
      exact hinv.cached i p h

theorem Inv_book {s : TicketService} (hinv : Inv s) (p : EventPtr) (e : Event)
    (hp : s.heap[p]? = some e) (a : Int) (ha : IsGoInt a) (c' : Int)
    (hm : s.uuidCounter ≤ c') (hfit : c' ≤ maxInt)
    (c : Fin 10 → Option EventPtr)
    (hc : Inv { heap := s.heap, events := s.events, mu := false, uuidCounter := s.uuidCounter,
                cache := c }) :
    Inv { heap := s.heap.set p { e with AvailableTickets := a }, events := s.events, mu := false,
          uuidCounter := c', cache := c } where
  free := rfl
  counter_nonneg := by have := hinv.counter_nonneg; simp only; omega
  counter_fits := hfit
  keyed := by
    intro k q h
    obtain ⟨e0, he0, hid, i, h1, h2, h3⟩ := hinv.keyed k q h
    by_cases hq : p = q
    · subst hq
      rw [hp] at he0
      cases he0
      exact ⟨{ e with AvailableTickets := a }, getElem?_set_same _ hp, hid, i, h1,
        by simp only; omega, h3⟩
    · refine ⟨e0, ?_, hid, i, h1, by simp only; omega, h3⟩
      simp only [List.getElem?_set, hq, if_false]
      exact he0
  valid := by
    intro kp h
    simp only [List.length_set]
    exact hinv.valid kp h
  ints := by
    intro x hx
    rcases List.mem_or_eq_of_mem_set hx with h | h
    · exact hinv.ints x h
    · subst h
      exact ⟨(hinv.ints e (List.getElem?_mem hp)).1, ha⟩
  cached := by
    intro i q h
    obtain ⟨e0, he0, hld, hs⟩ := hc.cached i q h
    by_cases hq : p = q
    · subst hq
      simp only at he0
      rw [hp] at he0
      cases he0
      exact ⟨{ e with AvailableTickets := a }, getElem?_set_same _ hp, hld, hs⟩
    · refine ⟨e0, ?_, hld, hs⟩
      simp only [List.getElem?_set, hq, if_false]
      exact he0



theorem getElem?_append_old {α : Type} {l : List α} {p : Nat} {e : α} (x : α)
    (h : l[p]? = some e) : (l ++ [x])[p]? = some e := by
  rw [List.getElem?_append_left (lt_of_getElem? h)]
  exact h

theorem loadMap_fresh_key {s : TicketService} (hinv : Inv s) :
    loadMap (Itoa (s.uuidCounter + 1)) s.events = none := by
  cases h : loadMap (Itoa (s.uuidCounter + 1)) s.events with
  | none => rfl
  | some p =>
    obtain ⟨e, _, _, i, h1, h2, h3⟩ := hinv.keyed _ _ h
    have := Itoa_injective (by have := hinv.counter_nonneg; omega) (by omega) h3
    omega

theorem Inv_create {s : TicketService} (hinv : Inv s) (name : String) (date : Time)
    (totalTickets : Int) (ht : IsGoInt totalTickets)
    (hfit : s.uuidCounter + 1 ≤ maxInt) :
    Inv { heap := s.heap ++ [{ ID := Itoa (s.uuidCounter + 1), Name := name, Date := date,
                               TotalTickets := totalTickets, AvailableTickets := totalTickets }],
          events := s.events ++ [(Itoa (s.uuidCounter + 1), s.heap.length)],
          mu := false, uuidCounter := s.uuidCounter + 1, cache := s.cache } where
  free := rfl
  counter_nonneg := by have := hinv.counter_nonneg; simp only; omega
  counter_fits := hfit
  keyed := by
    intro k p h
    simp only [loadMap_append] at h
    cases hl : loadMap k s.events with
    | some x =>
      rw [hl] at h
      simp only [Option.some.injEq] at h
      subst h
      obtain ⟨e, he, hid, i, h1, h2, h3⟩ := hinv.keyed k x hl
      exact ⟨e, getElem?_append_old _ he, hid, i, h1, by simp only; omega, h3⟩
    | none =>
      rw [hl] at h
      simp only at h
      split at h
      · rename_i hk
        cases h
        refine ⟨_, List.getElem?_concat_length _ _, hk, s.uuidCounter + 1, ?_, le_refl _, hk.symm⟩
        have := hinv.counter_nonneg
        omega
      · cases h
  valid := by
    intro kp h
    simp only [List.length_append, List.length_singleton]
    rcases List.mem_append.1 h with h | h
    · have := hinv.valid kp h
      exact Nat.lt_succ_of_lt this
    · simp only [List.mem_singleton] at h
      subst h
      exact Nat.lt_succ_self _
  ints := by
    intro e he
    rcases List.mem_append.1 he with h | h
    · exact hinv.ints e h
    · simp only [List.mem_singleton] at h
      subst h
      exact ⟨ht, ht⟩
  cached := by
    intro i p h
    obtain ⟨e, he, hld, hs⟩ := hinv.cached i p h
    refine ⟨e, getElem?_append_old _ he, ?_, hs⟩
    simp only [loadMap_append, hld]

/-- On a consistent state the cache lookup for a stored key either hits the stored record
or misses. -/
theorem hit_or_miss {s : TicketService} (hinv : Inv s) (k : Fin 10) (eventID : String) :
    (∃ p e, s.cache k = some p ∧ s.heap[p]? = some e ∧ e.ID = eventID ∧
      loadMap eventID s.events = some p) ∨ CacheMiss s k eventID := by
  cases hc : s.cache k with
  | none => exact Or.inr (Or.inl hc)
  | some p =>
    obtain ⟨e, he, hld, _⟩ := hinv.cached k p hc
    by_cases hid : e.ID = eventID
    · exact Or.inl ⟨p, e, rfl, he, hid, by rw [← hid]; exact hld⟩
    · exact Or.inr (Or.inr ⟨p, e, hc, he, hid⟩)

theorem BookTickets_apply (eventID : String) (numTickets : Int) (s : TicketService) :
    BookTickets eventID numTickets s =
      match resolveEvent eventID s with
      | Outcome.ret (Except.ok event) s' => bookResolved eventID event numTickets s'
      | Outcome.ret (Except.error err) s' => Outcome.ret (Except.error err) s'
      | Outcome.fault s' => Outcome.fault s'
      | Outcome.blocked s' => Outcome.blocked s' := by
  simp only [BookTickets, bind_apply]
  cases resolveEvent eventID s with
  | ret a s' => cases a <;> rfl
  | fault s' => rfl
  | blocked s' => rfl

theorem BookTickets_stored {s : TicketService} (hinv : Inv s) (eventID : String)
    (numTickets : Int) (q : EventPtr) (e : Event)
    (hl : loadMap eventID s.events = some q) (hq : s.heap[q]? = some e) :
    ∃ c : Fin 10 → Option EventPtr,
      Inv { heap := s.heap, events := s.events, mu := false, uuidCounter := s.uuidCounter,
            cache := c } ∧
      BookTickets eventID numTickets s =
        if e.AvailableTickets < numTickets then
          Outcome.ret (Except.error BookError.notEnoughTickets)
            { heap := s.heap, events := s.events, mu := false, uuidCounter := s.uuidCounter,
              cache := c }
        else
          Outcome.ret (Except.ok (issuedFrom s.uuidCounter numTickets.toNat))
            (bookedState s q e numTickets c) := by
  obtain ⟨e0, he0, hid, i, h1, h2, h3⟩ := hinv.keyed _ _ hl
  rw [hq] at he0
  cases he0
  obtain ⟨k, hk⟩ := cacheSlot_of_nonneg (Atoi eventID).1 (by
    rw [h3]; exact Atoi_Itoa_nonneg i (by omega))
  have hs : s = { heap := s.heap, events := s.events, mu := false, uuidCounter := s.uuidCounter,
                  cache := s.cache } := by
    have := hinv.free
    cases s
    simp_all
  rcases hit_or_miss hinv k eventID with ⟨p, e', hc, hp, hid', hl'⟩ | hm
  · rw [hl] at hl'
    cases hl'
    refine ⟨s.cache, by rw [← hs]; exact hinv, ?_⟩
    rw [BookTickets_apply, resolveEvent_hit eventID s k q e hk hc hq hid]
    simp only
    by_cases hlt : e.AvailableTickets < numTickets
    · rw [if_pos hlt, bookResolved_short eventID q numTickets s e hq hlt, ← hs]
    · rw [if_neg hlt, bookResolved_enough eventID q numTickets s e hinv.free hq hlt,
        storeMap_same _ _ _ hl]
      rfl
  · refine ⟨Function.update s.cache k (some q), Inv_cache_update hinv eventID q k hl hk, ?_⟩
    rw [BookTickets_apply, resolveEvent_miss_found eventID s k q hk hm hinv.free hl]
    simp only
    by_cases hlt : e.AvailableTickets < numTickets
    · rw [if_pos hlt]
      exact bookResolved_short eventID q numTickets _ e hq hlt
    · rw [if_neg hlt]
      have hb := bookResolved_enough eventID q numTickets
        { heap := s.heap, events := s.events, mu := false, uuidCounter := s.uuidCounter,
          cache := Function.update s.cache k (some q) } e rfl hq hlt
      simp only [storeMap_same _ _ _ hl] at hb
      exact hb

theorem BookTickets_absent {s : TicketService} (hinv : Inv s) (eventID : String)
    (numTickets : Int) (hl : loadMap eventID s.events = none) :
    BookTickets eventID numTickets s = Outcome.fault s ∨
    BookTickets eventID numTickets s = Outcome.fault
      { heap := s.heap, events := s.events, mu := true, uuidCounter := s.uuidCounter,
        cache := s.cache } := by
  cases hk : cacheSlot (Int.tmod (Atoi eventID).1 10) with
  | none =>
    left
    rw [BookTickets_apply, resolveEvent_badIndex eventID s hk]
  | some k =>
    right
    rcases hit_or_miss hinv k eventID with ⟨p, e', hc, hp, hid', hl'⟩ | hm
    · rw [hl] at hl'
      cases hl'
    · rw [BookTickets_apply, resolveEvent_miss_absent eventID s k hk hm hinv.free hl]



theorem BookTickets_miss (eventID : String) (numTickets : Int) (s : TicketService) (k : Fin 10)
    (q : EventPtr) (e : Event) (hk : cacheSlot (Int.tmod (Atoi eventID).1 10) = some k)
    (hm : CacheMiss s k eventID) (hfree : s.mu = false)
    (hl : loadMap eventID s.events = some q) (hq : s.heap[q]? = some e) :
    BookTickets eventID numTickets s =
      if e.AvailableTickets < numTickets then
        Outcome.ret (Except.error BookError.notEnoughTickets)
          { heap := s.heap, events := s.events, mu := false, uuidCounter := s.uuidCounter,
            cache := Function.update s.cache k (some q) }
      else
        Outcome.ret (Except.ok (issuedFrom s.uuidCounter numTickets.toNat))
          (bookedState s q e numTickets (Function.update s.cache k (some q))) := by
  rw [BookTickets_apply, resolveEvent_miss_found eventID s k q hk hm hfree hl]
  simp only
  by_cases hlt : e.AvailableTickets < numTickets
  · rw [if_pos hlt]
    exact bookResolved_short eventID q numTickets _ e hq hlt
  · rw [if_neg hlt]
    have hb := bookResolved_enough eventID q numTickets
      { heap := s.heap, events := s.events, mu := false, uuidCounter := s.uuidCounter,
        cache := Function.update s.cache k (some q) } e rfl hq hlt
    simp only [storeMap_same _ _ _ hl] at hb
    exact hb

theorem insufficient_apply (p : EventPtr) (numTickets : Int) (s : TicketService) (e : Event)
    (hp : s.heap[p]? = some e) :
    insufficient p numTickets s = Outcome.ret (decide (e.AvailableTickets < numTickets)) s := by
  simp [insufficient, bind_apply, pure_apply, deref, hp]

theorem issueAndCommit_free (eventID : String) (p : EventPtr) (numTickets : Int)
    (s : TicketService) (e : Event) (hfree : s.mu = false) (hp : s.heap[p]? = some e) :
    issueAndCommit eventID p numTickets s = Outcome.ret (issuedFrom s.uuidCounter numTickets.toNat)
      { heap := s.heap.set p
          { e with AvailableTickets := wrapInt (e.AvailableTickets - numTickets) },
        events := storeMap eventID p s.events, mu := false,
        uuidCounter := counterAfter s.uuidCounter numTickets.toNat, cache := s.cache } := by
  simp [issueAndCommit, bind_apply, pure_apply, issueTickets_free _ _ s hfree, lock,
    subAvailable, hp, eventsStore, unlock]

theorem Booking.step_called_miss (eventID : String) (numTickets : Int) (s : TicketService)
    (k : Fin 10) (q : EventPtr) (e : Event)
    (hk : cacheSlot (Int.tmod (Atoi eventID).1 10) = some k)
    (hm : CacheMiss s k eventID) (hfree : s.mu = false)
    (hl : loadMap eventID s.events = some q) (hq : s.heap[q]? = some e)
    (hge : ¬ e.AvailableTickets < numTickets) :
    (Booking.called eventID numTickets).step s = some (Booking.passed eventID q numTickets,
      { heap := s.heap, events := s.events, mu := false, uuidCounter := s.uuidCounter,
        cache := Function.update s.cache k (some q) }) := by
  simp only [Booking.step]
  rw [resolveEvent_miss_found eventID s k q hk hm hfree hl]
  simp only
  have hi := insufficient_apply q numTickets
    { heap := s.heap, events := s.events, mu := false, uuidCounter := s.uuidCounter,
      cache := Function.update s.cache k (some q) } e hq
  rw [hi]
  simp [hge]

theorem Booking.step_called_hit (eventID : String) (numTickets : Int) (s : TicketService)
    (k : Fin 10) (q : EventPtr) (e : Event)
    (hk : cacheSlot (Int.tmod (Atoi eventID).1 10) = some k)
    (hc : s.cache k = some q) (hq : s.heap[q]? = some e) (hid : e.ID = eventID)
    (hge : ¬ e.AvailableTickets < numTickets) :
    (Booking.called eventID numTickets).step s = some (Booking.passed eventID q numTickets, s) := by
  simp only [Booking.step]
  rw [resolveEvent_hit eventID s k q e hk hc hq hid]
  simp only
  rw [insufficient_apply q numTickets s e hq]
  simp [hge]

theorem Booking.step_passed (eventID : String) (numTickets : Int) (s : TicketService)
    (q : EventPtr) (e : Event) (hfree : s.mu = false) (hq : s.heap[q]? = some e) :
    (Booking.passed eventID q numTickets).step s =
      some (Booking.returned (Except.ok (issuedFrom s.uuidCounter numTickets.toNat)),
        { heap := s.heap.set q
            { e with AvailableTickets := wrapInt (e.AvailableTickets - numTickets) },
          events := storeMap eventID q s.events, mu := false,
          uuidCounter := counterAfter s.uuidCounter numTickets.toNat, cache := s.cache }) := by
  simp only [Booking.step]
  rw [issueAndCommit_free eventID q numTickets s e hfree hq]

theorem idsFrom_zero (c : Int) : idsFrom c 0 = [] := rfl

theorem idsFrom_one (c : Int) : idsFrom c 1 = [Itoa (c + 1)] := by
  simp [idsFrom, List.range_succ]

theorem issuedFrom_length (c : Int) (n : Nat) : (issuedFrom c n).length = n := by
  simp [issuedFrom]

theorem idsFrom_add (c : Int) (m n : Nat) :
    idsFrom c (m + n) = idsFrom c m ++ idsFrom (c + (m : Int)) n := by
  induction n with
  | zero => simp [idsFrom]
  | succ n ih =>
    rw [← Nat.add_assoc]
    have e : ∀ (c : Int) (k : Nat), idsFrom c (k + 1) = idsFrom c k ++ [Itoa (c + 1 + (k : Int))] := by
      intro c k
      simp [idsFrom, List.range_succ]
    rw [e, e, ih, List.append_assoc]
    have e3 : c + 1 + ((m + n : Nat) : Int) = c + (m : Int) + 1 + (n : Int) := by
      push_cast; omega
    rw [e3]

/-- While the counter stays within the Go `int` range, the identifiers issued are the
decimal strings of `c+1, ..., c+n`. -/
theorem issuedFrom_eq_idsFrom (c : Int) (n : Nat) (h0 : 0 ≤ c) (hfit : c + (n : Int) ≤ maxInt) :
    issuedFrom c n = idsFrom c n := by
  unfold issuedFrom idsFrom
  apply List.map_congr_left
  intro j hj
  have hj' : j < n := List.mem_range.1 hj
  have hw : wrapInt (c + 1 + (j : Int)) = c + 1 + (j : Int) := by
    apply wrapInt_of_isGoInt
    unfold IsGoInt minInt
    unfold maxInt at *
    omega
  rw [hw]

theorem counterAfter_eq (c : Int) (n : Nat) (h0 : 0 ≤ c) (hfit : c + (n : Int) ≤ maxInt) :
    counterAfter c n = c + (n : Int) := by
  unfold counterAfter
  by_cases hn : n = 0
  · subst hn
    simp
  · rw [if_neg hn]
    apply wrapInt_of_isGoInt
    unfold IsGoInt minInt
    unfold maxInt at *
    omega

/-- A returning call that does not wrap the counter keeps the state consistent, moves the
counter forward by the number of identifiers it hands out, and hands out the next
identifiers in order. -/
theorem Call.run_spec {s s' : TicketService} (hinv : Inv s) (c : Call) (ids : List String)
    (h : c.run s = some (ids, s')) (hfit : s.uuidCounter + (ids.length : Int) ≤ maxInt) :
    Inv s' ∧ s'.uuidCounter = s.uuidCounter + (ids.length : Int) ∧
      ids = idsFrom s.uuidCounter ids.length := by
  cases c with
  | create name date totalTickets =>
    simp only [Call.run] at h
    split at h
    · rename_i ht
      rw [CreateEvent_free name date totalTickets s hinv.free] at h
      simp only [List.getElem?_concat_length, Option.some.injEq, Prod.mk.injEq] at h
      obtain ⟨h1, h2⟩ := h
      subst h1
      simp only [List.length_singleton, Nat.cast_one] at hfit
      have hw : wrapInt (s.uuidCounter + 1) = s.uuidCounter + 1 := by
        apply wrapInt_of_isGoInt
        have := hinv.counter_nonneg
        unfold IsGoInt minInt
        unfold maxInt at *
        omega
      rw [hw, storeMap_absent _ _ _ (loadMap_fresh_key hinv)] at h2
      subst h2
      refine ⟨Inv_create hinv name date totalTickets ht hfit, by simp, ?_⟩
      rw [hw, List.length_singleton, idsFrom_one]
    · cases h
  | book eventID numTickets =>
    simp only [Call.run] at h
    split at h
    · rename_i hn
      cases hl : loadMap eventID s.events with
      | none =>
        rcases BookTickets_absent hinv eventID numTickets hl with hb | hb <;>
          rw [hb] at h <;> cases h
      | some q =>
        obtain ⟨e, he, -⟩ := hinv.keyed _ _ hl
        obtain ⟨c, hc, hb⟩ := BookTickets_stored hinv eventID numTickets q e hl he
        rw [hb] at h
        by_cases hlt : e.AvailableTickets < numTickets
        · rw [if_pos hlt] at h
          simp only [Option.some.injEq, Prod.mk.injEq] at h
          obtain ⟨h1, h2⟩ := h
          subst h1 h2
          exact ⟨hc, by simp, by simp [idsFrom_zero]⟩
        · rw [if_neg hlt] at h
          simp only [Option.some.injEq, Prod.mk.injEq] at h
          obtain ⟨h1, h2⟩ := h
          subst h1 h2
          rw [issuedFrom_length] at hfit ⊢
          have h0 := hinv.counter_nonneg
          have hcnt := counterAfter_eq s.uuidCounter numTickets.toNat h0 hfit
          refine ⟨?_, hcnt, issuedFrom_eq_idsFrom _ _ h0 hfit⟩
          exact Inv_book hinv q e he _ (isGoInt_wrapInt _) _
            (by rw [hcnt]; omega) (by rw [hcnt]; exact hfit) c hc
    · cases h

theorem runCalls_spec (calls : List Call) : ∀ {s s' : TicketService} (ids : List String),
    Inv s → runCalls calls s = some (ids, s') → s.uuidCounter + (ids.length : Int) ≤ maxInt →
    Inv s' ∧ s'.uuidCounter = s.uuidCounter + (ids.length : Int) ∧
      ids = idsFrom s.uuidCounter ids.length := by
  induction calls with
  | nil =>
    intro s s' ids hinv h _
    simp only [runCalls, Option.some.injEq, Prod.mk.injEq] at h
    obtain ⟨h1, h2⟩ := h
    subst h1 h2
    exact ⟨hinv, by simp, rfl⟩
  | cons c cs ih =>
    intro s s' ids hinv h hfit
    simp only [runCalls] at h
    cases hc : c.run s with
    | none => rw [hc] at h; cases h
    | some r1 =>
      obtain ⟨ids1, s1⟩ := r1
      rw [hc] at h
      simp only at h
      cases hcs : runCalls cs s1 with
      | none => rw [hcs] at h; cases h
      | some r2 =>
        obtain ⟨ids2, s2⟩ := r2
        rw [hcs] at h
        simp only [Option.some.injEq, Prod.mk.injEq] at h
        obtain ⟨h1, h2⟩ := h
        subst h1 h2
        simp only [List.length_append, Nat.cast_add] at hfit ⊢
        obtain ⟨hinv1, hm1, hids1⟩ := Call.run_spec hinv c ids1 hc (by omega)
        obtain ⟨hinv2, hm2, hids2⟩ := ih ids2 hinv1 hcs (by rw [hm1]; omega)
        refine ⟨hinv2, by rw [hm2, hm1]; omega, ?_⟩
        rw [idsFrom_add, ← hids1, ← hm1, ← hids2]

theorem Reachable.inv {s : TicketService} (h : Reachable s) : Inv s := by
  obtain ⟨calls, ids, hrun, hlen⟩ := h
  exact (runCalls_spec calls ids Inv_fresh hrun (by simp only [fresh]; omega)).1

theorem storedEvent_unfold {s : TicketService} {k : String} {E : Event}
    (h : storedEvent s k = some E) : ∃ p, loadMap k s.events = some p ∧ s.heap[p]? = some E := by
  unfold storedEvent at h
  cases hl : loadMap k s.events with
  | none => rw [hl] at h; cases h
  | some p => rw [hl] at h; exact ⟨p, rfl, h⟩

theorem idsFrom_nodup (N : Nat) : (idsFrom 0 N).Nodup := by
  unfold idsFrom
  apply List.Nodup.map_on _ (List.nodup_range N)
  intro x _ y _ h
  have := Itoa_injective (by omega) (by omega) h
  omega

theorem concertFive_step :
    (Call.create "Concert" 0 5).run fresh = some (["1"], concertFive) := by
  simp only [Call.run]
  rw [if_pos (by decide), CreateEvent_free "Concert" 0 5 fresh rfl]
  rfl

theorem concertFive_run :
    runCalls [Call.create "Concert" 0 5] fresh = some (["1"], concertFive) := by
  simp only [runCalls, concertFive_step]
  rfl

theorem concertFive_reachable : Reachable concertFive :=
  ⟨[Call.create "Concert" 0 5], ["1"], concertFive_run, by decide⟩

theorem concertOne_run :
    runCalls [Call.create "Concert" 0 1] fresh = some (["1"], concertOne) := by
  simp only [runCalls, Call.run]
  rw [if_pos (by decide), CreateEvent_free "Concert" 0 1 fresh rfl]
  rfl

theorem concertNegative_run :
    runCalls [Call.create "Concert" 0 (-1)] fresh = some (["1"], concertNegative) := by
  simp only [runCalls, Call.run]
  rw [if_pos (by decide), CreateEvent_free "Concert" 0 (-1) fresh rfl]
  rfl

theorem concertFive_book3 :
    BookTickets "1" 3 concertFive = Outcome.ret (Except.ok ["2", "3", "4"]) concertBooked := by
  rw [BookTickets_miss "1" 3 concertFive 1 0
    { ID := "1", Name := "Concert", Date := 0, TotalTickets := 5, AvailableTickets := 5 }
    (by decide) (Or.inl rfl) rfl rfl rfl, if_neg (by decide)]
  rfl

theorem concertBooked_step :
    (Call.book "1" 3).run concertFive = some (["2", "3", "4"], concertBooked) := by
  simp only [Call.run]
  rw [if_pos (by decide), concertFive_book3]

theorem concertBooked_run :
    runCalls [Call.book "1" 3] concertFive = some (["2", "3", "4"], concertBooked) := by
  simp only [runCalls, concertBooked_step]
  rfl

theorem concertBooked_full_run :
    runCalls [Call.create "Concert" 0 5, Call.book "1" 3] fresh =
      some (["1", "2", "3", "4"], concertBooked) := by
  simp only [runCalls, concertFive_step, concertBooked_step]
  rfl

theorem concertFive_bookUnknown :
    BookTickets "2" 1 concertFive = Outcome.fault
      { heap := concertFive.heap, events := concertFive.events, mu := true,
        uuidCounter := concertFive.uuidCounter, cache := concertFive.cache } := by
  rw [BookTickets_apply,
    resolveEvent_miss_absent "2" concertFive 2 (by decide) (Or.inl rfl) rfl rfl]

theorem step_first_check :
    (Booking.called "1" 1).step concertOne = some (Booking.passed "1" 0 1, concertOneCached) := by
  rw [Booking.step_called_miss "1" 1 concertOne 1 0
    { ID := "1", Name := "Concert", Date := 0, TotalTickets := 1, AvailableTickets := 1 }
    (by decide) (Or.inl rfl) rfl rfl rfl (by decide)]
  rfl

theorem step_second_check :
    (Booking.called "1" 1).step concertOneCached =
      some (Booking.passed "1" 0 1, concertOneCached) :=
  Booking.step_called_hit "1" 1 concertOneCached 1 0
    { ID := "1", Name := "Concert", Date := 0, TotalTickets := 1, AvailableTickets := 1 }
    (by decide) rfl rfl rfl (by decide)

theorem step_first_commit :
    (Booking.passed "1" 0 1).step concertOneCached =
      some (Booking.returned (Except.ok ["2"]), concertOneSold) := by
  rw [Booking.step_passed "1" 1 concertOneCached 0
    { ID := "1", Name := "Concert", Date := 0, TotalTickets := 1, AvailableTickets := 1 } rfl rfl]
  rfl

theorem step_second_commit :
    (Booking.passed "1" 0 1).step concertOneSold =
      some (Booking.returned (Except.ok ["3"]), concertOneOversold) := by
  rw [Booking.step_passed "1" 1 concertOneSold 0
    { ID := "1", Name := "Concert", Date := 0, TotalTickets := 1, AvailableTickets := 0 } rfl rfl]
  rfl

theorem oversell_schedule :
    runSchedule [0, 1, 0, 1] [Booking.called "1" 1, Booking.called "1" 1] concertOne =
      some ([Booking.returned (Except.ok ["2"]), Booking.returned (Except.ok ["3"])],
        concertOneOversold) := by
  simp only [runSchedule, List.getElem?_cons_zero, List.getElem?_cons_succ, step_first_check,
    List.set_cons_zero, List.set_cons_succ, step_second_check, step_first_commit,
    step_second_commit]

theorem Itoa_neg_ne {i j : Int} (hi : i < 0) (hj : 0 ≤ j) : Itoa i ≠ Itoa j := by
  intro h
  unfold Itoa at h
  rw [if_pos hi, if_neg (by omega)] at h
  have hd : '-' :: decimal i.natAbs = decimal j.toNat := congrArg String.data h
  have hp := parseDigits_decimal j.toNat
  rw [← hd] at hp
  simp [parseDigits, digitVal_minus] at hp

/-- The identifier `CreateEvent` issues next is not a key of the event map, also when the
increment wraps. -/
theorem loadMap_fresh_wrapped {s : TicketService} (hinv : Inv s) :
    loadMap (Itoa (wrapInt (s.uuidCounter + 1))) s.events = none := by
  by_cases hfit : s.uuidCounter + 1 ≤ maxInt
  · have hw : wrapInt (s.uuidCounter + 1) = s.uuidCounter + 1 := by
      apply wrapInt_of_isGoInt
      have := hinv.counter_nonneg
      unfold IsGoInt minInt
      unfold maxInt at *
      omega
    rw [hw]
    exact loadMap_fresh_key hinv
  · cases h : loadMap (Itoa (wrapInt (s.uuidCounter + 1))) s.events with
    | none => rfl
    | some p =>
      obtain ⟨e, _, _, i, h1, _, h3⟩ := hinv.keyed _ _ h
      have hneg : wrapInt (s.uuidCounter + 1) < 0 := by
        have := hinv.counter_fits
        unfold wrapInt
        unfold maxInt at *
        omega
      exact absurd h3 (Itoa_neg_ne hneg (by omega))

theorem CreateEvent_held (name : String) (date : Time) (totalTickets : Int) (s : TicketService)
    (h : s.mu = true) : CreateEvent name date totalTickets s = Outcome.blocked s := by
  simp [CreateEvent, bind_apply, generateUUID_held s h]

theorem Itoa_minInt : Itoa (-9223372036854775808) = "-9223372036854775808" := by
  simp [Itoa, decimal, digitsLE, digitChar]

theorem concertMax_step :
    (Call.create "Concert" 0 9223372036854775807).run fresh = some (["1"], concertMax) := by
  simp only [Call.run]
  rw [if_pos (by decide), CreateEvent_free "Concert" 0 9223372036854775807 fresh rfl]
  rfl

theorem concertMax_run :
    runCalls [Call.create "Concert" 0 9223372036854775807] fresh = some (["1"], concertMax) := by
  simp only [runCalls, concertMax_step]
  rfl

theorem concertMax_bookMax :
    BookTickets "1" 9223372036854775807 concertMax =
      Outcome.ret (Except.ok (issuedFrom 1 9223372036854775807)) concertMaxSold := by
  rw [BookTickets_miss "1" 9223372036854775807 concertMax 1 0
    { ID := "1", Name := "Concert", Date := 0, TotalTickets := 9223372036854775807,
      AvailableTickets := 9223372036854775807 }
    (by decide) (Or.inl rfl) rfl rfl rfl, if_neg (by decide)]
  have e : (9223372036854775807 : Int).toNat = 9223372036854775807 := by decide
  rw [e]
  have hs : bookedState concertMax 0
      { ID := "1", Name := "Concert", Date := 0, TotalTickets := 9223372036854775807,
        AvailableTickets := 9223372036854775807 } 9223372036854775807
      (Function.update concertMax.cache 1 (some 0)) = concertMaxSold := by
    simp only [bookedState, concertMax, concertMaxSold, e, counterAfter, TicketService.mk.injEq,
      and_true, true_and]
    decide
  have hc : concertMax.uuidCounter = 1 := rfl
  rw [hs, hc]

theorem runCalls_single (c : Call) (s s' : TicketService) (ids : List String)
    (h : c.run s = some (ids, s')) : runCalls [c] s = some (ids, s') := by
  simp only [runCalls, h, List.append_nil]

theorem concertMaxSold_step :
    (Call.book "1" 9223372036854775807).run concertMax =
      some (issuedFrom 1 9223372036854775807, concertMaxSold) := by
  simp only [Call.run]
  rw [if_pos (by decide), concertMax_bookMax]

theorem wrapInt_two63 : wrapInt (1 + 1 + ((9223372036854775806 : Nat) : Int)) =
    -9223372036854775808 := by
  decide

/-- The last of the `2^63 - 1` identifiers issued from counter `1` is the decimal string of
the wrapped counter. -/
theorem issuedFrom_last_wrapped :
    (issuedFrom 1 9223372036854775807)[9223372036854775806]? =
      some "-9223372036854775808" := by
  unfold issuedFrom
  rw [List.getElem?_map, List.getElem?_range (by decide), Option.map_some', wrapInt_two63,
    Itoa_minInt]

theorem fresh_reachable : Reachable fresh := ⟨[], [], rfl, by decide⟩

theorem mem_storeMap {k : String} {v : EventPtr} {l : List (String × EventPtr)}
    {kp : String × EventPtr} (h : kp ∈ storeMap k v l) : kp ∈ l ∨ kp = (k, v) := by
  induction l with
  | nil =>
    simp only [storeMap, List.mem_singleton] at h
    exact Or.inr h
  | cons x xs ih =>
    obtain ⟨k', v'⟩ := x
    by_cases hk : k' = k
    · simp only [storeMap, hk, if_true, List.mem_cons] at h
      rcases h with h | h
      · exact Or.inr h
      · exact Or.inl (List.mem_cons_of_mem _ h)
    · simp only [storeMap, hk, if_false, List.mem_cons] at h
      rcases h with h | h
      · exact Or.inl (by rw [h]; exact List.mem_cons_self _ _)
      · rcases ih h with h' | h'
        · exact Or.inl (List.mem_cons_of_mem _ h')
        · exact Or.inr h'

theorem loadMap_mem {k : String} {p : EventPtr} {l : List (String × EventPtr)}
    (h : loadMap k l = some p) : (k, p) ∈ l := by
  induction l with
  | nil => simp [loadMap] at h
  | cons x xs ih =>
    obtain ⟨k', v'⟩ := x
    by_cases hk : k' = k
    · simp only [loadMap, hk, if_true, Option.some.injEq] at h
      rw [hk, h]
      exact List.mem_cons_self _ _
    · simp only [loadMap, hk, if_false] at h
      exact List.mem_cons_of_mem _ (ih h)

theorem getElem?_of_lt {α : Type} {l : List α} {p : Nat} (h : p < l.length) :
    ∃ e, l[p]? = some e :=
  ⟨l[p], List.getElem?_eq_getElem h⟩

theorem Sound_fresh : Sound fresh where
  free := rfl
  valid := by intro kp h; simp [fresh] at h
  ints := by intro e h; simp [fresh] at h
  cacheValid := by intro i p h; simp [fresh] at h

theorem CreateEvent_sound {s : TicketService} (hs : Sound s) (hb : Bounded s) (name : String)
    (date : Time) (totalTickets : Int) (ht : IsGoInt totalTickets) (h0 : 0 ≤ totalTickets) :
    ∃ p s', CreateEvent name date totalTickets s = Outcome.ret p s' ∧ Sound s' ∧ Bounded s' := by
  refine ⟨_, _, CreateEvent_free name date totalTickets s hs.free, ?_, ?_⟩
  · constructor
    · rfl
    · intro kp h
      simp only [List.length_append, List.length_singleton]
      rcases mem_storeMap h with h | h
      · exact Nat.lt_succ_of_lt (hs.valid kp h)
      · rw [h]
        exact Nat.lt_succ_self _
    · intro e he
      rcases List.mem_append.1 he with h | h
      · exact hs.ints e h
      · simp only [List.mem_singleton] at h
        subst h
        exact ⟨ht, ht⟩
    · intro i p h
      simp only [List.length_append, List.length_singleton]
      exact Nat.lt_succ_of_lt (hs.cacheValid i p h)
  · intro e he
    rcases List.mem_append.1 he with h | h
    · exact hb e h
    · simp only [List.mem_singleton] at h
      subst h
      exact ⟨h0, le_refl _⟩

/-- The booking proper on a record `p` of a sound state, whatever the cache `c` and the way
the record was found: refusal leaves records, event map and counter alone; success lowers
the record's count and stores the pointer under `eventID`. -/
theorem bookResolved_sound {s : TicketService} (hs : Sound s) (hb : Bounded s)
    (eventID : String) (p : EventPtr) (hp : p < s.heap.length) (numTickets : Int)
    (h0 : 0 ≤ numTickets) :
    ∃ r s', bookResolved eventID p numTickets s = Outcome.ret r s' ∧ Sound s' ∧ Bounded s' := by
  obtain ⟨e, he⟩ := getElem?_of_lt hp
  by_cases hlt : e.AvailableTickets < numTickets
  · exact ⟨_, _, bookResolved_short eventID p numTickets s e he hlt, hs, hb⟩
  · refine ⟨_, _, bookResolved_enough eventID p numTickets s e hs.free he hlt, ?_, ?_⟩
    · constructor
      · rfl
      · intro kp h
        simp only [List.length_set]
        rcases mem_storeMap h with h | h
        · exact hs.valid kp h
        · rw [h]
          exact hp
      · intro x hx
        rcases List.mem_or_eq_of_mem_set hx with hx | hx
        · exact hs.ints x hx
        · subst hx
          exact ⟨(hs.ints e (List.getElem?_mem he)).1, isGoInt_wrapInt _⟩
      · intro i q h
        simp only [List.length_set]
        exact hs.cacheValid i q h
    · intro x hx
      rcases List.mem_or_eq_of_mem_set hx with hx | hx
      · exact hb x hx
      · subst hx
        have hmem := List.getElem?_mem he
        have h1 := hb e hmem
        have h2 := (hs.ints e hmem).2
        have hw : wrapInt (e.AvailableTickets - numTickets) =
            e.AvailableTickets - numTickets := by
          apply wrapInt_of_isGoInt
          unfold IsGoInt minInt maxInt at *
          omega
        simp only [hw]
        omega

/-- Resolving an identifier on a sound state either panics or yields an allocated record
and a sound state with the same records. -/
theorem resolveEvent_sound {s : TicketService} (hs : Sound s) (hb : Bounded s)
    (eventID : String) :
    (∃ t, resolveEvent eventID s = Outcome.fault t) ∨
    ∃ p s', resolveEvent eventID s = Outcome.ret (Except.ok p) s' ∧ p < s'.heap.length ∧
      Sound s' ∧ Bounded s' := by
  cases hk : cacheSlot (Int.tmod (Atoi eventID).1 10) with
  | none => exact Or.inl ⟨_, resolveEvent_badIndex eventID s hk⟩
  | some k =>
    have hmiss : CacheMiss s k eventID →
        (∃ t, resolveEvent eventID s = Outcome.fault t) ∨
        ∃ p s', resolveEvent eventID s = Outcome.ret (Except.ok p) s' ∧ p < s'.heap.length ∧
          Sound s' ∧ Bounded s' := by
      intro hm
      cases hl : loadMap eventID s.events with
      | none => exact Or.inl ⟨_, resolveEvent_miss_absent eventID s k hk hm hs.free hl⟩
      | some q =>
        have hq : q < s.heap.length := hs.valid _ (loadMap_mem hl)
        refine Or.inr ⟨q, _, resolveEvent_miss_found eventID s k q hk hm hs.free hl, hq, ?_, hb⟩
        constructor
        · rfl
        · exact hs.valid
        · exact hs.ints
        · intro i p h
          by_cases hi : i = k
          · subst hi
            simp only [Function.update_same, Option.some.injEq] at h
            subst h
            exact hq
          · simp only [Function.update_noteq hi] at h
            exact hs.cacheValid i p h
    cases hc : s.cache k with
    | none => exact hmiss (Or.inl hc)
    | some p =>
      have hp : p < s.heap.length := hs.cacheValid k p hc
      obtain ⟨e, he⟩ := getElem?_of_lt hp
      by_cases hid : e.ID = eventID
      · exact Or.inr ⟨p, s, resolveEvent_hit eventID s k p e hk hc he hid, hp, hs, hb⟩
      · exact hmiss (Or.inr ⟨p, e, hc, he, hid⟩)

theorem Call.run_bounded {s s' : TicketService} (hs : Sound s) (hb : Bounded s) (c : Call)
    (hc : c.NonNeg) (ids : List String) (h : c.run s = some (ids, s')) :
    Sound s' ∧ Bounded s' := by
  cases c with
  | create name date totalTickets =>
    simp only [Call.run] at h
    split at h
    · rename_i ht
      obtain ⟨p, t, hce, hst, hbt⟩ := CreateEvent_sound hs hb name date totalTickets ht hc
      rw [hce] at h
      simp only at h
      split at h
      · simp only [Option.some.injEq, Prod.mk.injEq] at h
        obtain ⟨-, h2⟩ := h
        subst h2
        exact ⟨hst, hbt⟩
      · cases h
    · cases h
  | book eventID numTickets =>
    simp only [Call.run] at h
    split at h
    · rw [BookTickets_apply] at h
      rcases resolveEvent_sound hs hb eventID with ⟨t, hr⟩ | ⟨p, t, hr, hp, hst, hbt⟩
      · rw [hr] at h
        cases h
      · rw [hr] at h
        simp only at h
        obtain ⟨r, u, hbr, hsu, hbu⟩ := bookResolved_sound hst hbt eventID p hp numTickets hc
        rw [hbr] at h
        cases r with
        | error err =>
          simp only [Option.some.injEq, Prod.mk.injEq] at h
          obtain ⟨-, h2⟩ := h
          subst h2
          exact ⟨hsu, hbu⟩
        | ok ticketIDs =>
          simp only [Option.some.injEq, Prod.mk.injEq] at h
          obtain ⟨-, h2⟩ := h
          subst h2
          exact ⟨hsu, hbu⟩
    · cases h

theorem runCalls_bounded (calls : List Call) : ∀ {s s' : TicketService} (ids : List String),
    Sound s → Bounded s → (∀ c ∈ calls, c.NonNeg) → runCalls calls s = some (ids, s') →
    Bounded s' := by
  induction calls with
  | nil =>
    intro s s' ids _ hb _ h
    simp only [runCalls, Option.some.injEq, Prod.mk.injEq] at h
    obtain ⟨-, h2⟩ := h
    subst h2
    exact hb
  | cons c cs ih =>
    intro s s' ids hs hb hnn h
    simp only [runCalls] at h
    cases hc : c.run s with
    | none => rw [hc] at h; cases h
    | some r1 =>
      obtain ⟨ids1, s1⟩ := r1
      rw [hc] at h
      simp only at h
      cases hcs : runCalls cs s1 with
      | none => rw [hcs] at h; cases h
      | some r2 =>
        obtain ⟨ids2, s2⟩ := r2
        rw [hcs] at h
        simp only [Option.some.injEq, Prod.mk.injEq] at h
        obtain ⟨-, h2⟩ := h
        subst h2
        obtain ⟨hs1, hb1⟩ := Call.run_bounded hs hb c (hnn c (List.mem_cons_self _ _)) ids1 hc
        exact ih ids2 hs1 hb1 (fun c' hc' => hnn c' (List.mem_cons_of_mem _ hc')) hcs

/-- In every reachable state a booking on an identifier that is not a key of the event map
panics; when the identifier's numeric value is not negative, the mutex is left held. -/
theorem BookTickets_unknown_event (s : TicketService) (hr : Reachable s) (eventID : String)
    (numTickets : Int) (h : loadMap eventID s.events = none) :
    (BookTickets eventID numTickets s).verdict = Verdict.panicked ∧
    (0 ≤ (Atoi eventID).1 → (BookTickets eventID numTickets s).state.mu = true) := by
  have hinv := hr.inv
  constructor
  · rcases BookTickets_absent hinv eventID numTickets h with hb | hb <;> rw [hb] <;> rfl
  · intro hnn
    obtain ⟨k, hk⟩ := cacheSlot_of_nonneg _ hnn
    rcases hit_or_miss hinv k eventID with ⟨p, e', hc, hp, hid', hl'⟩ | hm
    · rw [h] at hl'
      cases hl'
    · rw [BookTickets_apply, resolveEvent_miss_absent eventID s k hk hm hinv.free h]
      rfl

/-- Away from the leaked mutex: in a reachable state `CreateEvent(name, date, totalTickets)`
returns a new record with the given name and date,
`TotalTickets = AvailableTickets = totalTickets` and an identifier that was not a key of the
event map and now maps to the record. `ListEvents` afterwards lists that record together
with exactly the records listed before (up to the enumeration order), each unchanged. -/
theorem CreateEvent_lists_new_event (s : TicketService) (hr : Reachable s) (name : String)
    (date : Time) (totalTickets : Int) :
    ∃ p s', CreateEvent name date totalTickets s = Outcome.ret p s' ∧
      s'.heap[p]? = some { ID := Itoa (wrapInt (s.uuidCounter + 1)), Name := name,
                           Date := date, TotalTickets := totalTickets,
                           AvailableTickets := totalTickets } ∧
      loadMap (Itoa (wrapInt (s.uuidCounter + 1))) s.events = none ∧
      loadMap (Itoa (wrapInt (s.uuidCounter + 1))) s'.events = some p ∧
      ∃ before after, ListEvents s = Outcome.ret before s ∧
        ListEvents s' = Outcome.ret after s' ∧
        List.Perm after (p :: before) ∧ p ∉ before ∧
        ∀ q ∈ before, s'.heap[q]? = s.heap[q]? := by
  have hinv := hr.inv
  have hfresh := loadMap_fresh_wrapped hinv
  refine ⟨_, _, CreateEvent_free name date totalTickets s hinv.free, ?_, hfresh, ?_, ?_⟩
  · exact List.getElem?_concat_length _ _
  · simp only [storeMap_absent _ _ _ hfresh, loadMap_append, hfresh, if_true]
  · refine ⟨s.events.map Prod.snd, _, rfl, rfl, ?_, ?_, ?_⟩
    · simp only [storeMap_absent _ _ _ hfresh, List.map_append, List.map_cons, List.map_nil]
      exact List.perm_append_singleton _ _
    · intro hmem
      obtain ⟨kp, hkp, hq⟩ := List.mem_map.1 hmem
      have := hinv.valid kp hkp
      rw [hq] at this
      exact lt_irrefl _ this
    · intro q hq
      obtain ⟨kp, hkp, hq'⟩ := List.mem_map.1 hq
      have := hinv.valid kp hkp
      rw [hq'] at this
      simp only
      rw [List.getElem?_append_left this]

/-! ## The claims -/

/-- C1 (the code departs from the claim). `BookTickets` on an identifier that is not a key
of the event map does not return `event not found`. On the service that holds the single
event `"1"`, the call `BookTickets("2", 1)` panics at the type assertion of line 79, before
the `ok` flag is looked at, and the mutex taken at line 77 is still held: the lock state
changed from free to held. -/
theorem BookTickets_unknown_event_panics :
    Reachable concertFive ∧ loadMap "2" concertFive.events = none ∧
    concertFive.mu = false ∧
    BookTickets "2" 1 concertFive = Outcome.fault
      { heap := concertFive.heap, events := concertFive.events, mu := true,
        uuidCounter := concertFive.uuidCounter, cache := concertFive.cache } :=
  ⟨concertFive_reachable, rfl, rfl, concertFive_bookUnknown⟩

/-- C3 (amended). After every sequence of returning `CreateEvent` and `BookTickets` calls on
the fresh service in which every `totalTickets` and every `numTickets` is at least zero,
every stored event `E` has `0 ≤ E.AvailableTickets ≤ E.TotalTickets`. -/
theorem available_within_bounds (calls : List Call) (ids : List String) (s : TicketService)
    (hnn : ∀ c ∈ calls, c.NonNeg) (hrun : runCalls calls fresh = some (ids, s))
    (k : String) (E : Event) (hE : storedEvent s k = some E) :
    0 ≤ E.AvailableTickets ∧ E.AvailableTickets ≤ E.TotalTickets := by
  have hb : Bounded s :=
    runCalls_bounded calls ids Sound_fresh (by intro e he; simp [fresh] at he) hnn hrun
  obtain ⟨p, -, hp⟩ := storedEvent_unfold hE
  exact hb E (List.getElem?_mem hp)

/-- Instance of C3 (amended): after `CreateEvent("Concert", 0, 5)` and `BookTickets("1", 3)`
the event has two of its five tickets left. -/
theorem available_within_bounds_witness :
    (∀ c ∈ [Call.create "Concert" 0 5, Call.book "1" 3], c.NonNeg) ∧
    runCalls [Call.create "Concert" 0 5, Call.book "1" 3] fresh =
      some (["1", "2", "3", "4"], concertBooked) ∧
    storedEvent concertBooked "1" =
      some { ID := "1", Name := "Concert", Date := 0, TotalTickets := 5, AvailableTickets := 2 } ∧
    (0 ≤ (2 : Int) ∧ (2 : Int) ≤ 5) :=
  ⟨by
     intro c hc
     simp only [List.mem_cons, List.mem_singleton, List.not_mem_nil, or_false] at hc
     rcases hc with rfl | rfl <;> simp [Call.NonNeg],
   concertBooked_full_run, rfl,
   available_within_bounds [Call.create "Concert" 0 5, Call.book "1" 3] ["1", "2", "3", "4"]
     concertBooked
     (by
       intro c hc
       simp only [List.mem_cons, List.mem_singleton, List.not_mem_nil, or_false] at hc
       rcases hc with rfl | rfl <;> simp [Call.NonNeg])
     concertBooked_full_run "1" _ rfl⟩

/-- C3 as stated fails: no `BookTickets` call is made at all, yet `CreateEvent("Concert", 0, -1)`
stores an event whose `AvailableTickets` is `-1`, below zero. -/
theorem negative_total_breaks_bounds :
    (∀ c ∈ [Call.create "Concert" 0 (-1)], c.BookNonNeg) ∧
    runCalls [Call.create "Concert" 0 (-1)] fresh = some (["1"], concertNegative) ∧
    storedEvent concertNegative "1" =
      some { ID := "1", Name := "Concert", Date := 0, TotalTickets := -1,
             AvailableTickets := -1 } ∧
    ¬ (0 ≤ (-1 : Int)) :=
  ⟨by intro c hc; simp only [List.mem_singleton] at hc; subst hc; simp [Call.BookNonNeg],
   concertNegative_run, rfl, by decide⟩

/-- C5 (amended). Over every sequence of returning calls from the fresh service that issues at
most `2^63 - 1` identifiers in all, the identifiers handed out (event and ticket identifiers
together), in order, are the decimal strings of `1, ..., N`, where `N` is the counter.
Continuing the run extends that sequence to `1, ..., N + M`: the counter never decreases
and no identifier is issued twice. -/
theorem identifiers_consecutive (calls more : List Call) (ids ids' : List String)
    (s s' : TicketService) (h1 : runCalls calls fresh = some (ids, s))
    (h2 : runCalls more s = some (ids', s'))
    (hfit : ((ids ++ ids').length : Int) ≤ maxInt) :
    ∃ N M : Nat, s.uuidCounter = (N : Int) ∧ s'.uuidCounter = (N : Int) + (M : Int) ∧
      ids = idsFrom 0 N ∧ ids ++ ids' = idsFrom 0 (N + M) ∧
      (ids ++ ids').Nodup ∧ s.uuidCounter ≤ s'.uuidCounter := by
  simp only [List.length_append, Nat.cast_add] at hfit
  have h0 : fresh.uuidCounter = 0 := rfl
  obtain ⟨hinv, hN, hids⟩ := runCalls_spec calls ids Inv_fresh h1 (by rw [h0]; omega)
  rw [h0, Int.zero_add] at hN
  rw [h0] at hids
  obtain ⟨-, hM, hids'⟩ := runCalls_spec more ids' hinv h2 (by rw [hN]; omega)
  have happ : ids ++ ids' = idsFrom 0 (ids.length + ids'.length) := by
    rw [idsFrom_add, ← hids, Int.zero_add, ← hN, ← hids']
  refine ⟨ids.length, ids'.length, hN, by rw [hM, hN], hids, happ, ?_, by rw [hM]; omega⟩
  rw [happ]
  exact idsFrom_nodup _

/-- Instance of C5 (amended): one `CreateEvent` followed by a booking of three tickets. -/
theorem identifiers_consecutive_witness :
    runCalls [Call.create "Concert" 0 5] fresh = some (["1"], concertFive) ∧
    runCalls [Call.book "1" 3] concertFive = some (["2", "3", "4"], concertBooked) ∧
    (((["1"] ++ ["2", "3", "4"] : List String).length : Int) ≤ maxInt) ∧
    ∃ N M : Nat, concertFive.uuidCounter = (N : Int) ∧
      concertBooked.uuidCounter = (N : Int) + (M : Int) ∧
      ["1"] = idsFrom 0 N ∧ ["1"] ++ ["2", "3", "4"] = idsFrom 0 (N + M) ∧
      (["1"] ++ ["2", "3", "4"]).Nodup ∧ concertFive.uuidCounter ≤ concertBooked.uuidCounter :=
  ⟨concertFive_run, concertBooked_run, by decide,
   identifiers_consecutive [Call.create "Concert" 0 5] [Call.book "1" 3] ["1"] ["2", "3", "4"]
     concertFive concertBooked concertFive_run concertBooked_run (by decide)⟩

/-- C5 as stated fails: the run `CreateEvent("Concert", 0, 9223372036854775807)` then
`BookTickets("1", 9223372036854775807)` issues `2^63` identifiers. The last one is
`"-9223372036854775808"`, not the decimal string of `2^63`, and the counter goes from `1`
down to `-9223372036854775808`. -/
theorem identifiers_wrap_around :
    runCalls [Call.create "Concert" 0 9223372036854775807] fresh = some (["1"], concertMax) ∧
    runCalls [Call.book "1" 9223372036854775807] concertMax =
      some (issuedFrom 1 9223372036854775807, concertMaxSold) ∧
    (issuedFrom 1 9223372036854775807).length = 9223372036854775807 ∧
    (issuedFrom 1 9223372036854775807)[9223372036854775806]? = some "-9223372036854775808" ∧
    concertMax.uuidCounter = 1 ∧
    concertMaxSold.uuidCounter = -9223372036854775808 ∧
    concertMaxSold.uuidCounter < concertMax.uuidCounter :=
  ⟨concertMax_run,
   runCalls_single _ _ _ _ concertMaxSold_step,
   issuedFrom_length _ _, issuedFrom_last_wrapped, rfl, rfl, by decide⟩

/-- C6 (the code departs from the claim). One event with `T = 1` ticket and `K = 2`
goroutines that each book one ticket: when both run lines 70-91 before either runs lines
92-104, both pass the availability check, both bookings succeed (tickets `"2"` and `"3"`),
and `AvailableTickets` ends at `-1`. The check is made outside the mutex. -/
theorem concurrent_bookings_oversell :
    runCalls [Call.create "Concert" 0 1] fresh = some (["1"], concertOne) ∧
    runSchedule [0, 1, 0, 1] [Booking.called "1" 1, Booking.called "1" 1] concertOne =
      some ([Booking.returned (Except.ok ["2"]), Booking.returned (Except.ok ["3"])],
        concertOneOversold) ∧
    storedEvent concertOneOversold "1" =
      some { ID := "1", Name := "Concert", Date := 0, TotalTickets := 1,
             AvailableTickets := -1 } :=
  ⟨concertOne_run, oversell_schedule, rfl⟩

/-- C7 (the code departs from the claim). `CreateEvent` does not succeed in every service
state. On the service that holds the single event `"1"`, `BookTickets("2", 1)` panics with the
mutex of line 77 held (the defect of C1); in the state it leaves,
`CreateEvent("Opera", 7, 100)` never returns: it blocks in `generateUUID` at line 41, and no
event is created. -/
theorem CreateEvent_blocks_after_panic :
    Reachable concertFive ∧
    BookTickets "2" 1 concertFive = Outcome.fault concertHeld ∧
    CreateEvent "Opera" 7 100 concertHeld = Outcome.blocked concertHeld ∧
    ListEvents concertHeld = Outcome.ret [0] concertHeld :=
  ⟨concertFive_reachable, concertFive_bookUnknown,
   CreateEvent_held "Opera" 7 100 concertHeld rfl, rfl⟩

/-- C9 (the code departs from the claim). For the identifier `"-3"`, `strconv.Atoi` gives
`-3`, the remainder `-3 % 10` is `-3`, which is not an index of the ten-slot cache, and
`BookTickets("-3", numTickets)` panics at `ts.cache[cacheIndex]` in every state. -/
theorem BookTickets_negative_id_panics :
    Atoi "-3" = (-3, true) ∧ Int.tmod (-3) 10 = -3 ∧ cacheSlot (-3) = none ∧
    ∀ (numTickets : Int) (s : TicketService),
      BookTickets "-3" numTickets s = Outcome.fault s :=
  ⟨by decide, by decide, by decide, fun numTickets s => by
    rw [BookTickets_apply, resolveEvent_badIndex "-3" s (by decide)]⟩

end TicketSvc
